import Mathlib

/-!
# Verification of the aurelius markdown-preview server

Shallow embedding of the connection-broadcast engine of the `aurelius`
crate (file `src/lib.rs` and `src/render/markdown.rs`), together with
theorems settling the specification claims about it.

Conventions:
* Rust byte strings are modelled as `List Nat` (each element < 256 by
  construction); Rust `String` values as Lean `String`.
* Machine integers (`usize`) are modelled as `Nat`; the only arithmetic
  performed (`len * 3 / 2`, SHA-1 word operations) cannot overflow `u64`
  for realistic inputs, and SHA-1 words are reduced `% 2 ^ 32` explicitly.
* Fallible Rust functions returning `io::Result` are modelled with
  `Except IoError`.
-/

/-! ## Basic string helpers (models of Rust `str` methods) -/

/-- Model of Rust `str::starts_with` on character lists: `leadMatches pat s`
is `true` iff `pat` is an initial segment of `s`. -/
def leadMatches : List Char → List Char → Bool
  | [], _ => true
  | _ :: _, [] => false
  | p :: ps, c :: cs => p == c && leadMatches ps cs

/-- If `pat` is an initial segment of `s`, return the remainder of `s`,
otherwise `none`. -/
def dropLead : List Char → List Char → Option (List Char)
  | [], s => some s
  | _ :: _, [] => none
  | p :: ps, c :: cs => if p == c then dropLead ps cs else none

/-- Fuel-driven loop stripping the pattern `pat` from the front of `s` as many
times as it occurs.  Each successful strip of a nonempty pattern consumes at
least one character, so fuel `s.length` always suffices. -/
def trimLeadLoop (pat : List Char) : Nat → List Char → List Char
  | 0, s => s
  | fuel + 1, s =>
    match dropLead pat s with
    | some rest => trimLeadLoop pat fuel rest
    | none => s

/-- Model of Rust `str::trim_start_matches` with a `&str` pattern: repeatedly
removes the pattern from the front of the string. -/
def trimLeadAll (pat : String) (s : String) : String :=
  if pat.data.isEmpty then s
  else String.mk (trimLeadLoop pat.data s.data.length s.data)

/-- Model of Rust `str::split` with a `char` separator: splits the character
list at every occurrence of `sep`, keeping empty groups (as Rust does). -/
def splitOnChar (sep : Char) : List Char → List (List Char)
  | [] => [[]]
  | c :: cs =>
    let r := splitOnChar sep cs
    if c == sep then [] :: r
    else
      match r with
      | [] => [[c]]
      | g :: gs => (c :: g) :: gs

/-! ## In-process renderer size hint (`src/render/markdown.rs`)

`MarkdownRenderer::size_hint` is `input.len() * 3 / 2` where `input.len()`
is the byte length of the input and `/` is integer division. -/

/-- Embedding of `MarkdownRenderer::size_hint` from `src/render/markdown.rs`.
The input is the UTF-8 byte string of the markdown source. -/
def size_hint (input : List Nat) : Nat :=
  input.length * 3 / 2

/-! ## Request classification (`Handler::handle`, `src/lib.rs` 421-428)

The handler upgrades a request to the websocket path iff *some* header is
exactly `Upgrade: websocket`; the `Connection` header is never examined. -/

/-- An HTTP request header, as produced by `httparse`: a name and a value.
The source compares the value as the byte string `b"websocket"`; the
headers involved are ASCII so `String` is a faithful model. -/
structure HttpHeader where
  name : String
  value : String
deriving DecidableEq

/-- The connection-handler state reached after request classification:
either the websocket streaming path or a plain HTTP response. -/
inductive ConnKind
  | streaming
  | plainResponse
deriving DecidableEq

/-- Embedding of the header scan in `Handler::handle` (`src/lib.rs` 421-425):
`req.headers.iter().any(|h| h.name == "Upgrade" && h.value == b"websocket")`. -/
def upgrade_requested (headers : List HttpHeader) : Bool :=
  headers.any fun h => h.name == "Upgrade" && h.value == "websocket"

/-- Embedding of the dispatch in `Handler::handle` (`src/lib.rs` 421-431):
requests whose headers satisfy `upgrade_requested` go to
`serve_markdown_on_websocket`, all others to `serve_http`. -/
def classify_request (headers : List HttpHeader) : ConnKind :=
  if upgrade_requested headers then ConnKind.streaming else ConnKind.plainResponse

/-- Modelled from the spec (for comparison with `classify_request`): the spec
says a request is classified as an upgrade iff it carries the
connection-upgrade header *pair* — a `Connection` header indicating upgrade
together with an `Upgrade: websocket` header. -/
def classify_request_spec (headers : List HttpHeader) : ConnKind :=
  if (headers.any fun h => h.name == "Connection"
        && (h.value == "upgrade" || h.value == "Upgrade"))
      && (headers.any fun h => h.name == "Upgrade" && h.value == "websocket") then
    ConnKind.streaming
  else
    ConnKind.plainResponse

/-! ## Per-connection error dispatch (`Server::bind`, `src/lib.rs` 143-159)

Each accepted connection is handled on its own scoped thread.  When the
handler returns an error, the wrapper ignores `ConnectionReset` and
`BrokenPipe` `io::Error`s (and `EPROTOTYPE` on macOS, compiled out on other
targets, which is what we model here); every other error — including any
error whose boxed concrete type is not `io::Error`, such as a
`tungstenite::Error` from the websocket layer — hits the
`panic!("unexpected error occurred")` arm.  The panic unwinds only that
scoped thread; `crossbeam::thread::scope` collects it and the
`.unwrap()` on the scope result re-raises it on the listener thread once
the accept loop has ended (at shutdown), from where `Drop::drop`'s
`join().unwrap()` propagates it to the caller. -/

/-- The `io::ErrorKind` values relevant to the error dispatch. -/
inductive IoKind
  | connectionReset
  | brokenPipe
  | timedOut
  | fileNotFound
  | permissionDenied
  | invalidData
  | otherKind
deriving DecidableEq

/-- An `io::Error`, carrying its kind. -/
structure IoError where
  kind : IoKind
deriving DecidableEq

/-- The dynamic error value returned by `Handler::handle` (a
`Box<dyn Error>`): either a boxed `io::Error`, or a boxed error of some
other concrete type (e.g. `tungstenite::Error`, possibly wrapping an
`io::Error` of the given kind), for which `downcast_ref::<io::Error>()`
returns `None`. -/
inductive HandlerError
  | ioErr (kind : IoKind)
  | wsErr (wrapped : IoKind)
deriving DecidableEq

/-- Outcome of one connection-handler thread after the dispatch wrapper. -/
inductive HandlerOutcome
  | finished
  | panicked
deriving DecidableEq

/-- Embedding of the error dispatch wrapped around `handler.handle()` in
`Server::bind` (`src/lib.rs` 143-155), as compiled on non-macOS targets:
`ConnectionReset` and `BrokenPipe` `io::Error`s are swallowed; any other
result of `downcast_ref::<io::Error>()` falls to the `panic!` arm. -/
def dispatch_handler_result (r : Option HandlerError) : HandlerOutcome :=
  match r with
  | none => HandlerOutcome.finished
  | some (HandlerError.ioErr k) =>
    if k == IoKind.connectionReset || k == IoKind.brokenPipe then
      HandlerOutcome.finished
    else
      HandlerOutcome.panicked
  | some (HandlerError.wsErr _) => HandlerOutcome.panicked

/-- Result of one run of the listener (`src/lib.rs` 119-160): how many
accepted connections were handed to a handler, and whether the
`crossbeam` scope join at the end of the accept loop re-raises a panic on
the listener thread. -/
structure ListenerRun where
  handled : Nat
  joinPanics : Bool
deriving DecidableEq

/-- Embedding of the listener semantics for a complete run: `results` lists,
per accepted connection, the error (if any) its handler returned.  The
accept loop spawns a handler for every connection regardless of what other
handlers do, and the scope join panics iff some handler panicked. -/
def listener_run (results : List (Option HandlerError)) : ListenerRun :=
  { handled := results.length
    joinPanics := results.any fun r => dispatch_handler_result r == HandlerOutcome.panicked }

/-! ## Server state and `Server::send` (`src/lib.rs` 81-96, 186-218)

The server holds the shared render state `html: Arc<RwLock<Option<String>>>`
and the client registry `md_clients` mapping each live websocket connection
to the sending half of its unbounded signal channel.  `send` first produces
the HTML (through the external renderer when configured, otherwise through
the in-process `pulldown_cmark` renderer), then overwrites the shared slot
and pushes one `Signal::NewMarkdown` onto every client channel.  All three
external-renderer steps propagate errors with `?` *before* any mutation. -/

/-- The signal values sent over each websocket client's channel
(`src/lib.rs` 359-362). -/
inductive Signal
  | newMarkdown
  | close
deriving DecidableEq

/-- The cross-thread mutable state of the server relevant to `send`:
the shared HTML slot and, for each registered websocket client, the queue
of signals sitting in its unbounded channel. -/
structure ServerState where
  html : Option String
  clients : List (List Signal)
deriving DecidableEq

/-- One spawned child process of the external renderer, as observed by
`send`: whether the spawn succeeds, whether writing the markdown to its
stdin succeeds, and the result of reading its stdout to a string (an
`InvalidData` error models output that is not valid UTF-8).  The write and
read outcomes may depend on the input fed to the process. -/
structure ExternalProcess where
  spawnResult : Except IoError Unit
  writeResult : String → Except IoError Unit
  readResult : String → Except IoError String

/-- Embedding of the external-renderer arm of `Server::send`
(`src/lib.rs` 187-195): `renderer.spawn()?`, then
`child.stdin.write_all(markdown)?`, then
`child.stdout.read_to_string(&mut html)?`. -/
def renderExternal (p : ExternalProcess) (markdown : String) : Except IoError String := do
  p.spawnResult
  p.writeResult markdown
  p.readResult markdown

/-- The HTML produced by `Server::send` for a given input: the external
renderer when one is configured (`src/lib.rs` 187-195), otherwise the
infallible in-process `pulldown_cmark` rendering (`src/lib.rs` 196-209),
modelled by the function parameter `inProcess` since the CommonMark parser
is a third-party collaborator outside this repository. -/
def renderResult (inProcess : String → String) (renderer : Option ExternalProcess)
    (markdown : String) : Except IoError String :=
  match renderer with
  | some p => renderExternal p markdown
  | none => Except.ok (inProcess markdown)

/-- Embedding of `Server::send` (`src/lib.rs` 186-218): render the markdown;
on error return it at once, leaving the state untouched; on success store
the HTML in the shared slot and push `Signal::NewMarkdown` onto every
client channel, then return `Ok(())`. -/
def send (inProcess : String → String) (renderer : Option ExternalProcess)
    (st : ServerState) (markdown : String) : Except IoError Unit × ServerState :=
  match renderResult inProcess renderer markdown with
  | Except.error e => (Except.error e, st)
  | Except.ok h =>
    (Except.ok (),
      { html := some h
        clients := st.clients.map fun q => q ++ [Signal.newMarkdown] })

/-- Embedding of the shared-slot read performed by connection handlers
(`self.html.read().unwrap()`, `src/lib.rs` 474 and 504). -/
def snapshotHtml (st : ServerState) : Option String :=
  st.html

/-- Embedding of the initial delivery in `serve_markdown_on_websocket`
(`src/lib.rs` 472-478): immediately after the upgrade handshake, and before
entering the signal loop, the handler reads the shared slot and, if HTML is
present, writes it as one websocket text message; otherwise it writes
nothing. -/
def initialWsMessages (st : ServerState) : List String :=
  match snapshotHtml st with
  | some h => [h]
  | none => []

/-! ## Broadcast delivery to one subscriber (`src/lib.rs` 186-218, 465-509)

Interleaving model of the caller thread running `send` repeatedly and one
already-connected subscriber's websocket loop.  `send` takes `&mut self`,
so sends are serialized: each consists of the shared-slot write
(`src/lib.rs` 211`) followed by pushing one signal onto the subscriber's
unbounded channel (`src/lib.rs` 213-215`), and the next send starts only
after both micro-steps of the previous one completed.  The subscriber loop
(`src/lib.rs` 493-509`) consumes one queued signal at a time; for each it
reads the *current* shared slot and writes that value to its socket.
Generations number the slot writes: after `g` writes the slot holds the
rendering of the `g`-th sent input. -/

/-- Global interleaving state: `gen` counts completed slot writes, `notified`
counts completed signal pushes to the subscriber's channel (so its queue
holds `notified - popped` signals), `popped` counts signals the subscriber
consumed, and `observed` records, in order, the generation of the slot
value the subscriber read (and wrote to its socket) at each consumption. -/
structure BroadcastState where
  gen : Nat
  notified : Nat
  popped : Nat
  observed : List Nat
deriving DecidableEq

/-- One atomic micro-step of the interleaved system. -/
inductive BroadcastStep : BroadcastState → BroadcastState → Prop
  | writeHtml (s : BroadcastState) (hg : s.notified = s.gen) :
      BroadcastStep s ⟨s.gen + 1, s.notified, s.popped, s.observed⟩
  | notifyClients (s : BroadcastState) (hn : s.notified + 1 = s.gen) :
      BroadcastStep s ⟨s.gen, s.notified + 1, s.popped, s.observed⟩
  | popSignal (s : BroadcastState) (hp : s.popped < s.notified) :
      BroadcastStep s ⟨s.gen, s.notified, s.popped + 1, s.observed ++ [s.gen]⟩

/-- States reachable from the initial state (no sends, empty queue,
nothing observed yet) by any interleaving of the micro-steps. -/
inductive BroadcastReachable : BroadcastState → Prop
  | init : BroadcastReachable ⟨0, 0, 0, []⟩
  | step {s s' : BroadcastState} :
      BroadcastReachable s → BroadcastStep s s' → BroadcastReachable s'

/-- The text-message values the subscriber's socket saw, given the list of
renderings of the sent inputs in send order: observing generation `g` means
the slot held `renders[g-1]` at the read. -/
def observedHtml (renders : List String) (s : BroadcastState) : List String :=
  s.observed.map fun g => renders.getD (g - 1) ""

/-- Inductive invariant of the broadcast system. -/
def BroadcastInv (s : BroadcastState) : Prop :=
  s.popped ≤ s.notified ∧ s.notified ≤ s.gen
    ∧ s.observed.Chain' (· ≤ ·)
    ∧ (∀ g ∈ s.observed, 1 ≤ g ∧ g ≤ s.gen)
    ∧ s.observed.length = s.popped
    ∧ (s.popped = s.gen → 0 < s.popped → s.observed.getLast? = some s.gen)

/-! ## Config store and `Server::set_custom_css` (`src/lib.rs` 242-263)

`set_custom_css` walks the given stylesheet strings once: entries parsing
as a URL with scheme `http`/`https` are collected as links, every other
entry (with any leading `file://` occurrences trimmed) as a file path.
The file paths are then all read; `collect::<Result<Vec<_>, _>>()?`
propagates the first read error *before* either config field is assigned,
so on failure the previous `custom_styles` and `css_links` both survive. -/

/-- A parsed URL from the third-party `url` crate, as far as `set_custom_css`
observes it: its scheme and its text. -/
structure Url where
  scheme : String
  text : String
deriving DecidableEq

/-- The server configuration (`src/lib.rs` 364-381).  The static root is an
absolute path, modelled as its list of components. -/
structure Config where
  static_root : Option (List String)
  highlight_theme : String
  css_links : List Url
  custom_styles : List String
deriving DecidableEq

/-- Embedding of the classification loop of `set_custom_css`
(`src/lib.rs` 246-252): `Url::parse` succeeding with scheme `http` or
`https` sends the entry to the link list, everything else — parse failures
and other schemes — to the file list after `trim_start_matches("file://")`.
`Url::parse` itself is third-party, passed in as `parseUrl`. -/
def classify_stylesheets (parseUrl : String → Option Url) :
    List String → List Url × List String
  | [] => ([], [])
  | s :: rest =>
    let r := classify_stylesheets parseUrl rest
    match parseUrl s with
    | some u =>
      if u.scheme == "http" || u.scheme == "https" then (u :: r.1, r.2)
      else (r.1, trimLeadAll "file://" s :: r.2)
    | none => (r.1, trimLeadAll "file://" s :: r.2)

/-- Embedding of `collect::<Result<Vec<_>, _>>()`: all values, or the first
error. -/
def collectResults : List (Except IoError String) → Except IoError (List String)
  | [] => Except.ok []
  | Except.error e :: _ => Except.error e
  | Except.ok s :: rest =>
    match collectResults rest with
    | Except.error e => Except.error e
    | Except.ok ss => Except.ok (s :: ss)

/-- Embedding of `Server::set_custom_css` (`src/lib.rs` 242-263), with
`fs::read_to_string` passed in as `read_to_string`: classify the entries,
read every file path, and only on full success overwrite `custom_styles`
and `css_links`; the first read error is returned with the configuration
untouched. -/
def set_custom_css (parseUrl : String → Option Url)
    (read_to_string : String → Except IoError String)
    (cfg : Config) (stylesheets : List String) : Except IoError Unit × Config :=
  let pair := classify_stylesheets parseUrl stylesheets
  match collectResults (pair.2.map read_to_string) with
  | Except.error e => (Except.error e, cfg)
  | Except.ok styles =>
    (Except.ok (), { cfg with custom_styles := styles, css_links := pair.1 })

/-! ## Plain HTTP serving (`Handler::serve_http`, `src/lib.rs` 514-607)

For a request path that is neither `/` nor under the reserved `/__/` asset
space, the handler joins `static_root` with
`url_path_to_file_path(path)` — the path with leading `/` stripped and
split on `/`, each component (including `..`) pushed verbatim — and hands
the result to `fs::read`, answering 200 with the bytes on success and 404
otherwise.  `fsRead` models the operating-system read, keyed by the
canonical absolute path: `resolveComps` performs the kernel's resolution of
`.`, `..` and empty components when the syntactic path is opened. -/

/-- The responses `serve_http` can produce (status line plus body; headers
other than status are not modelled). -/
inductive HttpResponse
  | okFile (contents : List Nat)
  | okPage (html : String)
  | notFound
deriving DecidableEq

/-- Embedding of `url_path_to_file_path` (`src/lib.rs` 605-607):
`path.trim_start_matches('/').split('/').collect::<PathBuf>()`, the
`PathBuf` modelled as its list of components — no component, `..`
included, is rejected or rewritten. -/
def url_path_to_file_path (path : String) : List String :=
  (splitOnChar '/' (path.data.dropWhile fun c => c == '/')).map fun cs => String.mk cs

/-- Operating-system resolution of a syntactic path into a canonical one:
`..` pops the last component (staying at the root when there is none),
while `.` and empty components vanish. -/
def resolveComps : List String → List String → List String
  | acc, [] => acc
  | acc, c :: cs =>
    if c = ".." then resolveComps acc.dropLast cs
    else if c = "." || c = "" then resolveComps acc cs
    else resolveComps (acc ++ [c]) cs

/-- `startsWithComps root target` is `true` iff the canonical path `target`
lies at or below the directory `root`. -/
def startsWithComps : List String → List String → Bool
  | [], _ => true
  | _ :: _, [] => false
  | r :: rs, t :: ts => r == t && startsWithComps rs ts

/-- Embedding of `Handler::serve_http` (`src/lib.rs` 514-567): the reserved
`/__/` space is answered from the embedded asset table, `/` from the page
template (both out-of-scope collaborators, passed in as `staticAsset` and
`pageHtml`), and every other path from the file system below the
configured static root via `write_file` (`src/lib.rs` 584-592), 404 when
no root is configured or the read fails. -/
def serve_http (fsRead : List String → Option (List Nat))
    (staticAsset : String → Option (List Nat)) (pageHtml : String)
    (static_root : Option (List String)) (path : String) : HttpResponse :=
  if leadMatches "/__/".data path.data then
    match staticAsset (trimLeadAll "/__/" path) with
    | some contents => HttpResponse.okFile contents
    | none => HttpResponse.notFound
  else if path == "/" then HttpResponse.okPage pageHtml
  else
    match static_root with
    | some root =>
      match fsRead (resolveComps [] (root ++ url_path_to_file_path path)) with
      | some contents => HttpResponse.okFile contents
      | none => HttpResponse.notFound
    | none => HttpResponse.notFound

/-! ## Websocket upgrade handshake (`src/lib.rs` 437-463, 595-603)

`websocket_accept` feeds the client's `Sec-WebSocket-Key` bytes and then
the fixed GUID into one SHA-1 hasher — the streaming `input` calls hash
the concatenation of the two byte strings — and base64-encodes the
20-byte digest.  The SHA-1 and base64 algorithms below are the standard
ones implemented by the third-party `sha1` and `base64` crates the source
calls; SHA-1 words are `Nat` values kept `< 2 ^ 32` by explicit
reduction. -/

/-- Left rotation of the 32-bit word `x` by `s` places (`0 ≤ s ≤ 32`). -/
def rotl32 (s x : Nat) : Nat :=
  x * 2 ^ s % 2 ^ 32 + x / 2 ^ (32 - s)

/-- The SHA-1 round function for round `i`. -/
def sha1F (i b c d : Nat) : Nat :=
  if i < 20 then Nat.lor (Nat.land b c) (Nat.land (Nat.xor b 0xFFFFFFFF) d)
  else if i < 40 then Nat.xor (Nat.xor b c) d
  else if i < 60 then Nat.lor (Nat.lor (Nat.land b c) (Nat.land b d)) (Nat.land c d)
  else Nat.xor (Nat.xor b c) d

/-- The SHA-1 round constant for round `i`. -/
def sha1K (i : Nat) : Nat :=
  if i < 20 then 0x5A827999
  else if i < 40 then 0x6ED9EBA1
  else if i < 60 then 0x8F1BBCDC
  else 0xCA62C1D6

/-- Big-endian decoding of a byte list into 32-bit words (16 words per
64-byte block). -/
def bytesToWords : List Nat → List Nat
  | b0 :: b1 :: b2 :: b3 :: rest =>
    (((b0 * 256 + b1) * 256 + b2) * 256 + b3) :: bytesToWords rest
  | _ => []

/-- One step of the SHA-1 message-schedule extension: append
`rotl1 (w[n-3] xor w[n-8] xor w[n-14] xor w[n-16])`. -/
def extendScheduleStep (ws : List Nat) : List Nat :=
  ws ++ [rotl32 1 (Nat.xor
    (Nat.xor (ws.getD (ws.length - 3) 0) (ws.getD (ws.length - 8) 0))
    (Nat.xor (ws.getD (ws.length - 14) 0) (ws.getD (ws.length - 16) 0)))]

/-- Extend the 16-word schedule by `fuel` further words (to 80 in SHA-1). -/
def extendSchedule : Nat → List Nat → List Nat
  | 0, ws => ws
  | fuel + 1, ws => extendSchedule fuel (extendScheduleStep ws)

/-- The SHA-1 compression rounds over the scheduled words, starting at round
index `i` with working state `(a, b, c, d, e)`. -/
def sha1Rounds : Nat → List Nat → Nat × Nat × Nat × Nat × Nat → Nat × Nat × Nat × Nat × Nat
  | _, [], st => st
  | i, w :: ws, (a, b, c, d, e) =>
    sha1Rounds (i + 1) ws
      ((rotl32 5 a + sha1F i b c d + e + sha1K i + w) % 2 ^ 32, a, rotl32 30 b, c, d)

/-- Big-endian encoding of `v` into `k` bytes. -/
def beBytes : Nat → Nat → List Nat
  | 0, _ => []
  | k + 1, v => beBytes k (v / 256) ++ [v % 256]

/-- SHA-1 padding: append `0x80`, zero bytes up to 56 mod 64, and the
64-bit big-endian bit length of the message. -/
def sha1Pad (msg : List Nat) : List Nat :=
  msg ++ 0x80 :: (List.replicate ((119 - msg.length % 64) % 64) 0 ++ beBytes 8 (8 * msg.length))

/-- Split a byte list into 64-byte blocks (fuel-driven; fuel at least the
list length always suffices). -/
def chunks64 : Nat → List Nat → List (List Nat)
  | _, [] => []
  | 0, _ => []
  | fuel + 1, bs => bs.take 64 :: chunks64 fuel (bs.drop 64)

/-- The SHA-1 initialization vector. -/
def sha1Init : Nat × Nat × Nat × Nat × Nat :=
  (0x67452301, 0xEFCDAB89, 0x98BADCFE, 0x10325476, 0xC3D2E1F0)

/-- Fold the SHA-1 compression function over the 64-byte blocks. -/
def sha1Blocks : List (List Nat) → Nat × Nat × Nat × Nat × Nat → Nat × Nat × Nat × Nat × Nat
  | [], h => h
  | blk :: rest, (h0, h1, h2, h3, h4) =>
    match sha1Rounds 0 (extendSchedule 64 (bytesToWords blk)) (h0, h1, h2, h3, h4) with
    | (a, b, c, d, e) =>
      sha1Blocks rest ((h0 + a) % 2 ^ 32, (h1 + b) % 2 ^ 32, (h2 + c) % 2 ^ 32,
        (h3 + d) % 2 ^ 32, (h4 + e) % 2 ^ 32)

/-- SHA-1 of a byte string, as the 20-byte big-endian digest. -/
def sha1 (msg : List Nat) : List Nat :=
  match sha1Blocks (chunks64 (sha1Pad msg).length (sha1Pad msg)) sha1Init with
  | (h0, h1, h2, h3, h4) =>
    beBytes 4 h0 ++ beBytes 4 h1 ++ beBytes 4 h2 ++ beBytes 4 h3 ++ beBytes 4 h4

/-- The standard base64 alphabet. -/
def b64Alphabet : List Char :=
  "ABCDEFGHIJKLMNOPQRSTUVWXYZabcdefghijklmnopqrstuvwxyz0123456789+/".data

/-- The base64 digit for a 6-bit value. -/
def b64Char (n : Nat) : Char :=
  b64Alphabet.getD n 'A'

/-- Standard base64 encoding with `=` padding, three input bytes to four
output characters. -/
def base64Encode : List Nat → List Char
  | [] => []
  | [b0] => [b64Char (b0 / 4), b64Char (b0 % 4 * 16), '=', '=']
  | [b0, b1] =>
    [b64Char (b0 / 4), b64Char (b0 % 4 * 16 + b1 / 16), b64Char (b1 % 16 * 4), '=']
  | b0 :: b1 :: b2 :: rest =>
    b64Char (b0 / 4) :: b64Char (b0 % 4 * 16 + b1 / 16)
      :: b64Char (b1 % 16 * 4 + b2 / 64) :: b64Char (b2 % 64) :: base64Encode rest

/-- The fixed websocket magic GUID, as its ASCII bytes
(`src/lib.rs` 596). -/
def guidBytes : List Nat :=
  "258EAFA5-E914-47DA-95CA-C5AB0DC85B11".data.map Char.toNat

/-- Embedding of `websocket_accept` (`src/lib.rs` 595-603): one SHA-1 hasher
is fed the key bytes and then the GUID bytes — i.e. it digests their
concatenation — and the digest is base64-encoded. -/
def websocket_accept (key : List Nat) : String :=
  String.mk (base64Encode (sha1 (key ++ guidBytes)))

/-- Embedding of the handshake reply of `serve_markdown_on_websocket`
(`src/lib.rs` 446-462): without a `Sec-WebSocket-Key` header a 401 line is
written; with key `k` the 101 status line, the `Upgrade`/`Connection`
headers, the accept header derived from `k`, and the blank line are
written in order. -/
def handshakeResponse (key : Option (List Nat)) : List String :=
  match key with
  | none => ["HTTP/1.1 401 Bad Request\r\n"]
  | some k =>
    ["HTTP/1.1 101 Switching Protocols\r\n",
     "Upgrade: websocket\r\n",
     "Connection: upgrade\r\n",
     "Sec-WebSocket-Accept: " ++ websocket_accept k ++ "\r\n",
     "\r\n"]

/-!  ============================  THEOREMS  ============================ -/

/-- The invariant holds initially. -/
theorem broadcastInv_init : BroadcastInv ⟨0, 0, 0, []⟩ := by
  refine ⟨Nat.le_refl 0, Nat.le_refl 0, List.chain'_nil, ?_, rfl, ?_⟩
  · intro g hg; cases hg
  · intro _ h; cases h

/-- The invariant is preserved by every micro-step. -/
theorem broadcastInv_step {s s' : BroadcastState}
    (hinv : BroadcastInv s) (hstep : BroadcastStep s s') : BroadcastInv s' := by
  obtain ⟨h1, h2, h3, h4, h5, h6⟩ := hinv
  cases hstep with
  | writeHtml hg =>
    refine ⟨h1, by dsimp only; omega, h3, ?_, h5, ?_⟩
    · intro g hgm
      have := h4 g hgm
      dsimp only
      omega
    · dsimp only
      intro hpe _
      exfalso
      omega
  | notifyClients hn =>
    refine ⟨by dsimp only; omega, by dsimp only; omega, h3, h4, h5, h6⟩
  | popSignal hp =>
    have hgen1 : 1 ≤ s.gen := by omega
    refine ⟨by dsimp only; omega, h2, ?_, ?_, ?_, ?_⟩
    · dsimp only
      refine List.Chain'.append h3 (List.chain'_singleton s.gen) ?_
      intro x hx y hy
      simp only [List.head?_cons, Option.mem_def, Option.some.injEq] at hy
      obtain ⟨hne, rfl⟩ := List.mem_getLast?_eq_getLast hx
      exact hy ▸ (h4 _ (List.getLast_mem hne)).2
    · dsimp only
      intro g hgm
      rcases List.mem_append.mp hgm with hin | hone
      · exact h4 g hin
      · simp only [List.mem_singleton] at hone
        omega
    · dsimp only
      simp [h5]
    · dsimp only
      intro _ _
      rw [List.getLast?_append_cons]
      rfl

/-- Claim C10 (corrected): `MarkdownRenderer::size_hint` returns
`⌊1.5 × len(input)⌋` — integer division rounds down, so the result equals
`1.5 × len(input)` exactly when the byte length is even.  Stated exactly:
twice the hint plus `len mod 2` equals `3 × len`. -/
theorem size_hint_is_floor_of_three_halves (input : List Nat) :
    2 * size_hint input + input.length % 2 = 3 * input.length := by
  unfold size_hint
  omega

/-- Claim C10, counterexample to the claim as stated: for the one-byte input
`"h"` (byte 104), `size_hint` returns `1`, which is not the rational
`1.5 × 1`. -/
theorem size_hint_not_exact_on_odd_length :
    ¬ ((size_hint [104] : ℚ) = 3 / 2 * (([104] : List Nat).length : ℚ)) := by
  norm_num [size_hint]

/-- Claim C8 (corrected): a request is classified as a websocket upgrade iff
some header is exactly `Upgrade: websocket`; the `Connection` header is not
examined at all (prepending any `Connection` header never changes the
classification), and every other request is handled as a plain response. -/
theorem classify_request_upgrade_header_only (headers : List HttpHeader) :
    (classify_request headers = ConnKind.streaming
        ↔ ∃ h ∈ headers, h.name = "Upgrade" ∧ h.value = "websocket")
      ∧ (classify_request headers = ConnKind.plainResponse
        ↔ ¬ ∃ h ∈ headers, h.name = "Upgrade" ∧ h.value = "websocket")
      ∧ ∀ v : String,
          classify_request (⟨"Connection", v⟩ :: headers) = classify_request headers := by
  have key : upgrade_requested headers = true
      ↔ ∃ h ∈ headers, h.name = "Upgrade" ∧ h.value = "websocket" := by
    unfold upgrade_requested
    simp [List.any_eq_true]
  have hcl : classify_request headers = ConnKind.streaming
      ↔ upgrade_requested headers = true := by
    unfold classify_request
    by_cases hb : upgrade_requested headers = true
    · simp [hb]
    · simp [hb]
  have hcl' : classify_request headers = ConnKind.plainResponse
      ↔ ¬ upgrade_requested headers = true := by
    unfold classify_request
    by_cases hb : upgrade_requested headers = true
    · simp [hb]
    · simp [hb]
  refine ⟨hcl.trans key, hcl'.trans (not_congr key), ?_⟩
  intro v
  have hfalse : (("Connection" : String) == "Upgrade") = false := by decide
  unfold classify_request upgrade_requested
  simp [List.any_cons, hfalse]

/-- Claim C8, witness: instantiating the corrected classification at the
header list `[Upgrade: websocket]`. -/
theorem classify_request_upgrade_header_only_witness :
    classify_request [⟨"Upgrade", "websocket"⟩] = ConnKind.streaming :=
  (classify_request_upgrade_header_only [⟨"Upgrade", "websocket"⟩]).1.2
    ⟨⟨"Upgrade", "websocket"⟩, by simp, rfl, rfl⟩

/-- Claim C8, counterexample to the claim as stated: the request carrying just
`Upgrade: websocket` and *no* `Connection` header is classified as a
websocket upgrade by the code, while the claimed header-pair rule would
classify it as a plain response. -/
theorem classify_request_ignores_connection_header :
    classify_request [⟨"Upgrade", "websocket"⟩] = ConnKind.streaming
      ∧ classify_request_spec [⟨"Upgrade", "websocket"⟩] = ConnKind.plainResponse
      ∧ classify_request [⟨"Upgrade", "websocket"⟩]
          ≠ classify_request_spec [⟨"Upgrade", "websocket"⟩] := by
  refine ⟨by decide, by decide, by decide⟩

/-- Supporting lemma (not a claim): each of the three fallible steps of the
external-renderer pipeline — spawn, write to stdin, read of stdout —
propagates its error out of `renderExternal`. -/
theorem renderExternal_error_modes (p : ExternalProcess) (md : String) (e : IoError) :
    (p.spawnResult = Except.error e → renderExternal p md = Except.error e)
      ∧ (p.spawnResult = Except.ok () → p.writeResult md = Except.error e →
          renderExternal p md = Except.error e)
      ∧ (p.spawnResult = Except.ok () → p.writeResult md = Except.ok () →
          p.readResult md = Except.error e → renderExternal p md = Except.error e) := by
  refine ⟨?_, ?_, ?_⟩
  · intro h1
    unfold renderExternal
    rw [h1]; rfl
  · intro h1 h2
    unfold renderExternal
    rw [h1]
    show (p.writeResult md >>= fun _ => p.readResult md) = Except.error e
    rw [h2]; rfl
  · intro h1 h2 h3
    unfold renderExternal
    rw [h1]
    show (p.writeResult md >>= fun _ => p.readResult md) = Except.error e
    rw [h2]
    show p.readResult md = Except.error e
    exact h3

/-- Claim C2 (confirmed): when `Server::send` succeeds (the renderer produced
`h` for input `md`), it returns `Ok(())`, the shared slot afterwards holds
exactly `some h`, a handler read of the slot returns that value, and one
`NewMarkdown` signal was pushed to every registered client. -/
theorem send_success_sets_html (inProcess : String → String)
    (renderer : Option ExternalProcess) (st : ServerState) (md : String) (h : String)
    (hres : renderResult inProcess renderer md = Except.ok h) :
    send inProcess renderer st md
        = (Except.ok (),
            { html := some h
              clients := st.clients.map fun q => q ++ [Signal.newMarkdown] })
      ∧ snapshotHtml (send inProcess renderer st md).2 = some h := by
  unfold send
  rw [hres]
  exact ⟨rfl, rfl⟩

/-- Claim C2, witness: sending `"hi"` through the in-process renderer
(instantiated with a concrete rendering function) stores its rendering and
notifies the one registered client. -/
theorem send_success_sets_html_witness :
    send (fun s => s ++ "!") none ⟨none, [[]]⟩ "hi"
        = (Except.ok (), ⟨some "hi!", [[Signal.newMarkdown]]⟩)
      ∧ snapshotHtml (send (fun s => s ++ "!") none ⟨none, [[]]⟩ "hi").2 = some "hi!" :=
  send_success_sets_html (fun s => s ++ "!") none ⟨none, [[]]⟩ "hi" "hi!" rfl

/-- Claim C3 (confirmed): a connection upgrading after a completed `send md`
receives the current rendering as its one initial text message, written
before the handler starts waiting for change signals; a connection
upgrading while the slot is still empty receives nothing initially. -/
theorem websocket_initial_delivery (inProcess : String → String)
    (st : ServerState) (md : String) :
    initialWsMessages (send inProcess none st md).2 = [inProcess md]
      ∧ (snapshotHtml st = none → initialWsMessages st = []) := by
  constructor
  · rfl
  · intro hnone
    unfold initialWsMessages
    rw [hnone]

/-- Claim C3, witness: with the in-process rendering of `"# Markdown"` being
`<h1>Markdown</h1>` (plus trailing newline, as `pulldown_cmark` emits), a
subscriber connecting after that send first receives exactly that HTML, and
a subscriber connecting before any send receives nothing initially. -/
theorem websocket_initial_delivery_witness :
    initialWsMessages
        (send (fun _ => "<h1>Markdown</h1>\n") none ⟨none, []⟩ "# Markdown").2
        = ["<h1>Markdown</h1>\n"]
      ∧ initialWsMessages (⟨none, []⟩ : ServerState) = [] :=
  ⟨(websocket_initial_delivery (fun _ => "<h1>Markdown</h1>\n") ⟨none, []⟩ "# Markdown").1,
    (websocket_initial_delivery (fun _ => "<h1>Markdown</h1>\n") ⟨none, []⟩ "# Markdown").2 rfl⟩

/-- Claim C4 (confirmed): when an external renderer is configured and its
pipeline fails (spawn, stdin write, or stdout decode), `send` returns that
very error, the shared HTML slot keeps its previous value, and no client
channel receives a signal. -/
theorem send_external_error_leaves_state (inProcess : String → String)
    (p : ExternalProcess) (st : ServerState) (md : String) (e : IoError)
    (herr : renderExternal p md = Except.error e) :
    send inProcess (some p) st md = (Except.error e, st)
      ∧ (send inProcess (some p) st md).2.html = st.html
      ∧ (send inProcess (some p) st md).2.clients = st.clients := by
  have hrr : renderResult inProcess (some p) md = Except.error e := herr
  unfold send
  rw [hrr]
  exact ⟨rfl, rfl, rfl⟩

/-- Claim C4, witness: a renderer whose child process cannot be spawned makes
`send` fail with that spawn error and leaves the previous state — the slot
content `"old"` and the client's empty queue — untouched. -/
theorem send_external_error_leaves_state_witness :
    send (fun s => s) (some ⟨Except.error ⟨IoKind.fileNotFound⟩,
          fun _ => Except.ok (), fun _ => Except.ok ""⟩)
        ⟨some "old", [[]]⟩ "# x"
        = (Except.error ⟨IoKind.fileNotFound⟩, ⟨some "old", [[]]⟩)
      ∧ (send (fun s => s) (some ⟨Except.error ⟨IoKind.fileNotFound⟩,
          fun _ => Except.ok (), fun _ => Except.ok ""⟩)
        ⟨some "old", [[]]⟩ "# x").2.html = some "old"
      ∧ (send (fun s => s) (some ⟨Except.error ⟨IoKind.fileNotFound⟩,
          fun _ => Except.ok (), fun _ => Except.ok ""⟩)
        ⟨some "old", [[]]⟩ "# x").2.clients = [[]] :=
  send_external_error_leaves_state (fun s => s)
    ⟨Except.error ⟨IoKind.fileNotFound⟩, fun _ => Except.ok (), fun _ => Except.ok ""⟩
    ⟨some "old", [[]]⟩ "# x" ⟨IoKind.fileNotFound⟩ rfl

/-- Claim C5 (corrected): the accept loop hands every accepted connection to
its own handler no matter how other handlers fail, and a handler that ends
with a `ConnectionReset` or `BrokenPipe` `io::Error` is silently dropped;
but the scope join on the listener thread panics iff any handler hit the
`panic!` arm, i.e. returned any other error. -/
theorem handler_error_isolation (results : List (Option HandlerError)) :
    (listener_run results).handled = results.length
      ∧ ((listener_run results).joinPanics = false
        ↔ ∀ r ∈ results, dispatch_handler_result r = HandlerOutcome.finished)
      ∧ ∀ k, (k = IoKind.connectionReset ∨ k = IoKind.brokenPipe) →
          dispatch_handler_result (some (HandlerError.ioErr k)) = HandlerOutcome.finished := by
  refine ⟨rfl, ?_, ?_⟩
  · unfold listener_run
    simp only [List.any_eq_false]
    constructor
    · intro h r hr
      have := h r hr
      rcases houtcome : dispatch_handler_result r with _ | _
      · rfl
      · exact absurd (by simp [houtcome]) this
    · intro h r hr
      simp [h r hr]
  · rintro k (rfl | rfl) <;> rfl

/-- Claim C5, witness: a handler ending with a `ConnectionReset` error is
silently dropped, per the corrected isolation theorem. -/
theorem handler_error_isolation_witness :
    dispatch_handler_result (some (HandlerError.ioErr IoKind.connectionReset))
      = HandlerOutcome.finished :=
  (handler_error_isolation []).2.2 IoKind.connectionReset (Or.inl rfl)

/-- Claim C5, counterexample to the claim as stated: a per-connection write
error of kind `TimedOut` (not an expected disconnect signature) makes the
handler thread panic, and the panic re-surfaces on the listener thread at the
scope join — it does not terminate only that connection. -/
theorem handler_error_panics_listener :
    dispatch_handler_result (some (HandlerError.ioErr IoKind.timedOut))
        = HandlerOutcome.panicked
      ∧ (listener_run [none, some (HandlerError.ioErr IoKind.timedOut)]).joinPanics = true := by
  exact ⟨rfl, rfl⟩

/-- Every reachable broadcast state satisfies the invariant. -/
theorem broadcastReachable_inv {s : BroadcastState}
    (h : BroadcastReachable s) : BroadcastInv s := by
  induction h with
  | init => exact broadcastInv_init
  | step _ hstep ih => exact broadcastInv_step ih hstep

/-- Claim C1 (corrected): in every reachable state of the interleaved system,
the generations the already-connected subscriber observed are non-decreasing
(an older slot value is never written after a newer one), every observed
generation corresponds to one of the sends performed so far, and once all
sends have completed and the subscriber has drained its signal queue, the
last observed value is that of the final send.  (The observed sequence may
*stutter*: the latest value can be delivered several times — see the
counterexample — so it is not in general a duplicate-free subsequence.) -/
theorem broadcast_monotone_last_value (s : BroadcastState)
    (hreach : BroadcastReachable s) :
    s.observed.Chain' (· ≤ ·)
      ∧ (∀ g ∈ s.observed, 1 ≤ g ∧ g ≤ s.gen)
      ∧ (s.notified = s.gen → s.popped = s.notified → 0 < s.gen →
          s.observed.getLast? = some s.gen) := by
  obtain ⟨h1, h2, h3, h4, h5, h6⟩ := broadcastReachable_inv hreach
  refine ⟨h3, h4, ?_⟩
  intro hng hpn hgen
  exact h6 (by omega) (by omega)

/-- Claim C1, witness: after one completed send and one drained signal, the
subscriber's last observed value is that of send 1. -/
theorem broadcast_monotone_last_value_witness :
    (⟨1, 1, 1, [1]⟩ : BroadcastState).observed.getLast?
      = some (⟨1, 1, 1, [1]⟩ : BroadcastState).gen :=
  (broadcast_monotone_last_value ⟨1, 1, 1, [1]⟩
      (BroadcastReachable.step
        (BroadcastReachable.step
          (BroadcastReachable.step BroadcastReachable.init
            (BroadcastStep.writeHtml ⟨0, 0, 0, []⟩ rfl))
          (BroadcastStep.notifyClients ⟨1, 0, 0, []⟩ rfl))
        (BroadcastStep.popSignal ⟨1, 1, 0, []⟩ (by decide)))).2.2 rfl rfl (by decide)

/-- Claim C1, counterexample to the claim as stated: with two sends rendering
`<p>one</p>` and `<p>two</p>`, the interleaving "send 1 completes, send 2
completes, subscriber wakes twice" is reachable and makes the subscriber
observe `<p>two</p>` twice — which is **not** a (possibly-skipping,
duplicate-free) subsequence of the sent renderings, refuting the
"no value repeated / at-most-one-outstanding" part of the claim. -/
theorem broadcast_duplicate_delivery :
    BroadcastReachable ⟨2, 2, 2, [2, 2]⟩
      ∧ observedHtml ["<p>one</p>", "<p>two</p>"] ⟨2, 2, 2, [2, 2]⟩
          = ["<p>two</p>", "<p>two</p>"]
      ∧ ¬ List.Sublist ["<p>two</p>", "<p>two</p>"] ["<p>one</p>", "<p>two</p>"] := by
  refine ⟨?_, rfl, ?_⟩
  · exact
      BroadcastReachable.step
        (BroadcastReachable.step
          (BroadcastReachable.step
            (BroadcastReachable.step
              (BroadcastReachable.step
                (BroadcastReachable.step BroadcastReachable.init
                  (BroadcastStep.writeHtml ⟨0, 0, 0, []⟩ rfl))
                (BroadcastStep.notifyClients ⟨1, 0, 0, []⟩ rfl))
              (BroadcastStep.writeHtml ⟨1, 1, 0, []⟩ rfl))
            (BroadcastStep.notifyClients ⟨2, 1, 0, []⟩ rfl))
          (BroadcastStep.popSignal ⟨2, 2, 0, []⟩ (by decide)))
        (BroadcastStep.popSignal ⟨2, 2, 1, [2]⟩ (by decide))
  · intro hsub
    have hcount := hsub.count_le "<p>two</p>"
    simp [List.count_cons] at hcount

/-- Supporting lemma (not a claim): `collectResults` produces an error iff
some element of the list is an error. -/
theorem collectResults_error_iff (rs : List (Except IoError String)) :
    (∃ e, collectResults rs = Except.error e) ↔ ∃ r ∈ rs, ∃ e, r = Except.error e := by
  induction rs with
  | nil => simp [collectResults]
  | cons r rest ih =>
    cases r with
    | error e => simp [collectResults]
    | ok s =>
      constructor
      · rintro ⟨e, he⟩
        unfold collectResults at he
        cases hc : collectResults rest with
        | error e2 =>
          obtain ⟨r2, hr2, he2⟩ := ih.mp ⟨e2, hc⟩
          exact ⟨r2, List.mem_cons_of_mem _ hr2, he2⟩
        | ok ss =>
          rw [hc] at he
          exact Except.noConfusion he
      · rintro ⟨r2, hr2, e, rfl⟩
        rcases List.mem_cons.mp hr2 with h | h
        · exact Except.noConfusion h
        · obtain ⟨e2, hc⟩ := ih.mpr ⟨_, h, e, rfl⟩
          refine ⟨e2, ?_⟩
          unfold collectResults
          rw [hc]

/-- Claim C7 (confirmed): `set_custom_css` classifies every entry — those
parsing as `http`/`https` URLs become links, all others (stripped of
leading `file://`) become file paths that are read synchronously — and the
call fails iff reading one of those files fails, in which case the first
read error is returned and both stored CSS lists keep their previous
values (no partial update). -/
theorem set_custom_css_classify_and_no_partial_update
    (parseUrl : String → Option Url) (read_to_string : String → Except IoError String)
    (cfg : Config) (stylesheets : List String) :
    classify_stylesheets parseUrl stylesheets
        = (stylesheets.filterMap fun s =>
            match parseUrl s with
            | some u => if u.scheme == "http" || u.scheme == "https" then some u else none
            | none => none,
          stylesheets.filterMap fun s =>
            match parseUrl s with
            | some u =>
              if u.scheme == "http" || u.scheme == "https" then none
              else some (trimLeadAll "file://" s)
            | none => some (trimLeadAll "file://" s))
      ∧ (∀ e,
          collectResults ((classify_stylesheets parseUrl stylesheets).2.map read_to_string)
              = Except.error e →
          set_custom_css parseUrl read_to_string cfg stylesheets = (Except.error e, cfg))
      ∧ (∀ styles,
          collectResults ((classify_stylesheets parseUrl stylesheets).2.map read_to_string)
              = Except.ok styles →
          set_custom_css parseUrl read_to_string cfg stylesheets
            = (Except.ok (),
                { cfg with
                  custom_styles := styles
                  css_links := (classify_stylesheets parseUrl stylesheets).1 }))
      ∧ ((∃ f ∈ (classify_stylesheets parseUrl stylesheets).2, ∃ e,
            read_to_string f = Except.error e)
          ↔ ∃ e, (set_custom_css parseUrl read_to_string cfg stylesheets).1
              = Except.error e) := by
  refine ⟨?_, ?_, ?_, ?_⟩
  · induction stylesheets with
    | nil => rfl
    | cons s rest ih =>
      cases hp : parseUrl s with
      | none => simp [classify_stylesheets, List.filterMap_cons, hp, ih]
      | some u =>
        by_cases hs : u.scheme = "http" ∨ u.scheme = "https"
        · have hb : (u.scheme == "http" || u.scheme == "https") = true := by
            rcases hs with h | h <;> simp [h]
          simp [classify_stylesheets, List.filterMap_cons, hp, hb, hs, ih]
        · have hb : (u.scheme == "http" || u.scheme == "https") = false := by
            push_neg at hs
            simp [hs.1, hs.2]
          simp [classify_stylesheets, List.filterMap_cons, hp, hb, hs, ih]
  · intro e h
    simp only [set_custom_css]
    rw [h]
  · intro styles h
    simp only [set_custom_css]
    rw [h]
  · constructor
    · rintro ⟨f, hf, e, he⟩
      obtain ⟨e2, hc⟩ := (collectResults_error_iff _).mpr
        ⟨read_to_string f, List.mem_map_of_mem _ hf, e, he⟩
      refine ⟨e2, ?_⟩
      simp only [set_custom_css]
      rw [hc]
    · rintro ⟨e, he⟩
      simp only [set_custom_css] at he
      cases hc : collectResults
          ((classify_stylesheets parseUrl stylesheets).2.map read_to_string) with
      | error e2 =>
        obtain ⟨r2, hr2, e3, rfl⟩ := (collectResults_error_iff _).mp ⟨e2, hc⟩
        obtain ⟨f, hf, hrf⟩ := List.mem_map.mp hr2
        exact ⟨f, hf, e3, hrf⟩
      | ok ss =>
        rw [hc] at he
        exact Except.noConfusion he

/-- Claim C7, witness: with a URL entry and a `file://` entry whose file
cannot be read, the whole call returns the read error and the previous
configuration (empty links, styles `["prev"]`) survives unchanged. -/
theorem set_custom_css_witness :
    set_custom_css
        (fun s => if s = "https://a/x.css" then some ⟨"https", "https://a/x.css"⟩ else none)
        (fun f => if f = "/bad.css" then Except.error ⟨IoKind.permissionDenied⟩
          else Except.ok "body")
        ⟨none, "github", [], ["prev"]⟩
        ["https://a/x.css", "file:///bad.css"]
      = (Except.error ⟨IoKind.permissionDenied⟩, ⟨none, "github", [], ["prev"]⟩) :=
  (set_custom_css_classify_and_no_partial_update
      (fun s => if s = "https://a/x.css" then some ⟨"https", "https://a/x.css"⟩ else none)
      (fun f => if f = "/bad.css" then Except.error ⟨IoKind.permissionDenied⟩
        else Except.ok "body")
      ⟨none, "github", [], ["prev"]⟩
      ["https://a/x.css", "file:///bad.css"]).2.1 ⟨IoKind.permissionDenied⟩ rfl

/-- Claim C9 (confirmed): for plain requests outside `/` and `/__/`, the
served file is exactly `static_root` joined with the `/`-split request path
(leading `/` stripped), with no rejection or normalization of `..`
components before the OS resolves them; consequently the request path
`/../secret.txt` — which keeps its `..` component — resolves outside the
configured root `/home/user/docs` and is served with status 200 when the
target file is readable. -/
theorem static_root_path_traversal :
    (∀ (fsRead : List String → Option (List Nat))
        (staticAsset : String → Option (List Nat))
        (pageHtml : String) (root : List String) (q : String),
        leadMatches "/__/".data q.data = false → q ≠ "/" →
        serve_http fsRead staticAsset pageHtml (some root) q
          = match fsRead (resolveComps [] (root ++ url_path_to_file_path q)) with
            | some contents => HttpResponse.okFile contents
            | none => HttpResponse.notFound)
      ∧ ".." ∈ url_path_to_file_path "/../secret.txt"
      ∧ resolveComps [] (["home", "user", "docs"] ++ url_path_to_file_path "/../secret.txt")
          = ["home", "user", "secret.txt"]
      ∧ startsWithComps ["home", "user", "docs"] ["home", "user", "secret.txt"] = false
      ∧ serve_http
          (fun p => if p = ["home", "user", "secret.txt"] then some [42] else none)
          (fun _ => none) "" (some ["home", "user", "docs"]) "/../secret.txt"
          = HttpResponse.okFile [42] := by
  refine ⟨?_, by decide, by decide, by decide, by decide⟩
  intro fsRead staticAsset pageHtml root q h1 h2
  unfold serve_http
  rw [h1]
  have h2b : (q == "/") = false := beq_eq_false_iff_ne.mpr h2
  simp only [h2b]
  rfl

/-- Claim C9, witness: instantiating the general serving equation — with an
empty filesystem every non-root, non-asset path yields 404. -/
theorem static_root_path_traversal_witness :
    serve_http (fun _ => none) (fun _ => none) "" (some ["srv"]) "/img/a.png"
      = HttpResponse.notFound :=
  static_root_path_traversal.1 (fun _ => none) (fun _ => none) "" ["srv"] "/img/a.png"
    (by decide) (by decide)

set_option maxRecDepth 100000 in
/-- Claim C6 (confirmed): for every client key, the upgrade reply consists of
the `101 Switching Protocols` status line, `Upgrade: websocket` and
`Connection: upgrade` headers, and a `Sec-WebSocket-Accept` value equal to
`base64(SHA1(key ++ "258EAFA5-E914-47DA-95CA-C5AB0DC85B11"))`; the SHA-1
and base64 functions used are the real algorithms, witnessed by the
RFC 6455 example key `dGhlIHNhbXBsZSBub25jZQ==` hashing to
`s3pPLMBiTxaQ9kYGzzhZRbK+xOo=`. -/
theorem websocket_handshake_accept :
    (∀ key : List Nat,
        handshakeResponse (some key)
          = ["HTTP/1.1 101 Switching Protocols\r\n",
             "Upgrade: websocket\r\n",
             "Connection: upgrade\r\n",
             "Sec-WebSocket-Accept: "
               ++ String.mk (base64Encode (sha1 (key ++ guidBytes))) ++ "\r\n",
             "\r\n"])
      ∧ websocket_accept ("dGhlIHNhbXBsZSBub25jZQ==".data.map Char.toNat)
          = "s3pPLMBiTxaQ9kYGzzhZRbK+xOo=" := by
  exact ⟨fun key => rfl, by decide⟩
